import Mathlib

/-!
Verification of the stack-graphs core against its specification.

This file shallowly embeds the parts of the `stack-graphs` crate that the
checked properties are about:

* `SimilarPathDetector.add_path` (src/stack-graphs/src/cycles.rs, lines 256-313),
  modelled generically over the path type `P` and the similarity key function
  `key : P → K`, exactly as the Rust code is generic over `P : HasPathKey`.
  The `HashMap<PathKey, SmallVec<P>>` of buckets is modelled as an association
  list observed through `lookupBucket`/`setBucket`; the comparison callback
  `cmp` (which in Rust receives the path arena only as scratch allocation
  space) is modelled as a pure function `P → P → Option Ordering`.
* `AppendingCycleDetector.is_cyclic` (cycles.rs, lines 471-551), modelled
  generically over the appendable and partial-path operations, exactly as the
  Rust code is generic over `H`, `A : Appendable` and `Db : ToAppendable`;
  the operations themselves live in `partial.rs`/`stitching.rs`.
* the assertion runner (src/stack-graphs/src/assert.rs): `AssertionTarget.matches_node`,
  `Assertion.run_defined` and `Assertion.run_defines`.  The stitcher
  (`stitching.rs`) is an oracle parameter `stitch`, the shadowing relation
  (`partial.rs`) a parameter `shadows`, and the span-containment test of the
  `lsp-positions` crate a parameter `contains`; panicking `unwrap` calls are
  made explicit by `Option`-valued results.
* the cancellation flags (src/stack-graphs/src/lib.rs, lines 132-160), with
  the monotonic clock made an explicit `now` argument.
* `ImplicationFilter` (src/stack-graphs/src/serde/filter.rs, lines 440-483),
  with the wrapped `Filter` trait object modelled as a record of functions.
-/

namespace StackGraphs

/-! ## Similar path detector (src/stack-graphs/src/cycles.rs) -/

/-- The body of the `while idx < possibly_similar_paths.len()` loop of
`SimilarPathDetector::add_path` together with the final
`possibly_similar_paths.push(path.clone())`: scanning the bucket front to
back, an element comparing `Some(Less)` is removed, the first element
comparing `Some(Equal)` or `Some(Greater)` stops the scan with result `true`,
an element comparing `None` is kept; if the scan exhausts the bucket the new
path is pushed at the end and the result is `false`. -/
def add_path_bucket (cmp : P → P → Option Ordering) (path : P) : List P → List P × Bool
  | [] => ([path], false)
  | other :: rest =>
    match cmp path other with
    | some Ordering.lt => add_path_bucket cmp path rest
    | some Ordering.eq => (other :: rest, true)
    | some Ordering.gt => (other :: rest, true)
    | none =>
      (other :: (add_path_bucket cmp path rest).1, (add_path_bucket cmp path rest).2)

/-- Bucket lookup in the detector state, modelling
`self.paths.entry(key).or_default()`: a missing key denotes the empty
bucket. -/
def lookupBucket [DecidableEq K] : List (K × List P) → K → List P
  | [], _ => []
  | e :: d, k => if e.1 = k then e.2 else lookupBucket d k

/-- Replacing the bucket of one key, leaving all other buckets unchanged. -/
def setBucket [DecidableEq K] (d : List (K × List P)) (k : K) (b : List P) :
    List (K × List P) :=
  (k, b) :: d.filter (fun e => !(decide (e.1 = k)))

/-- `SimilarPathDetector::add_path` (cycles.rs lines 259-313, with
`counts = None`, the default): runs the bucket scan on the bucket of
`path.key()` and returns the updated detector together with the boolean
result of the scan. -/
def SimilarPathDetector.add_path [DecidableEq K] (key : P → K)
    (cmp : P → P → Option Ordering) (d : List (K × List P)) (path : P) :
    List (K × List P) × Bool :=
  let k := key path
  let r := add_path_bucket cmp path (lookupBucket d k)
  (setBucket d k r.1, r.2)

/-- A sequence of `add_path` calls starting from a fresh detector,
keeping only the detector state. -/
def SimilarPathDetector.addAll [DecidableEq K] (key : P → K)
    (cmp : P → P → Option Ordering) (inputs : List P) : List (K × List P) :=
  inputs.foldl (fun d p => (SimilarPathDetector.add_path key cmp d p).1) []

/-- `cmp path other = Some(Equal) | Some(Greater)`: the branch of the loop
that rejects the new path. -/
def isSimilarCmp : Option Ordering → Bool
  | some Ordering.eq => true
  | some Ordering.gt => true
  | _ => false

/-- The comparison result of swapped arguments is the swapped comparison
result.  Any comparison function derived from a strict partial order (in
particular the shadowing order used by the stitcher) satisfies this. -/
def CmpSwapConsistent (cmp : P → P → Option Ordering) : Prop :=
  ∀ p q, cmp q p = (cmp p q).map Ordering.swap

/-- All distinct paths of a bucket are pairwise incomparable. -/
def PairwiseIncomp (cmp : P → P → Option Ordering) (l : List P) : Prop :=
  ∀ p ∈ l, ∀ q ∈ l, p ≠ q → cmp p q = none

/-- Concrete path type and key function used in witnesses: every path falls
into the single bucket of key `0`. -/
def key0 : Nat → Nat := fun _ => 0

/-- Concrete comparison function used in the C1 counterexample: path `2`
is similar (`Equal`) to stored path `0` and better (`Less`) than stored
path `1`; everything else is incomparable. -/
def cmp0 : Nat → Nat → Option Ordering := fun p q =>
  if p = 2 ∧ q = 0 then some Ordering.eq
  else if p = 2 ∧ q = 1 then some Ordering.lt
  else none

/-- Concrete swap-consistent comparison function used in the C4 witness:
equal paths compare `Equal`, distinct paths are incomparable. -/
def cmpEqOnly : Bool → Bool → Option Ordering := fun p q =>
  if p = q then some Ordering.eq else none

/-- Key function for the C4 witness. -/
def keyB : Bool → Nat := fun _ => 0

/-! ## Assertion runner (src/stack-graphs/src/assert.rs) -/

/-- Modelled from the spec: a source span, of which the assertion runner
consults only the start and end lines ("a node optionally carries a source
span (file, start/end line, ...)"); the `lsp_positions::Span` type itself
lives in the `lsp-positions` crate, outside the embedded sources. -/
structure Span where
  start_line : Nat
  end_line : Nat
  deriving DecidableEq, Repr

/-- Modelled from the spec: the data of a stack-graph node consulted by the
assertion runner and the serialization filter (the `Node` type itself lives
in `graph.rs`, outside the embedded sources): the definition/reference
flags, the optional symbol, the optional file of the node's id, and the
optional source-info span.  Handles are numbers. -/
structure Node where
  is_definition : Bool
  is_reference : Bool
  symbol? : Option Nat
  file? : Option Nat
  span? : Option Span
  deriving DecidableEq, Repr

/-- `AssertionTarget` (assert.rs lines 310-317): an expected definition
target, a file and a 0-based line. -/
structure AssertionTarget where
  file : Nat
  line : Nat
  deriving DecidableEq, Repr

/-- `AssertionTarget::matches_node` (assert.rs lines 342-348).  The Rust
code unwraps `graph[node].file()` and `graph.source_info(node)` before
comparing; `none` models the panic of those unwraps on a node without a
file or without source info. -/
def AssertionTarget.matches_node (t : AssertionTarget) (n : Node) : Option Bool :=
  match n.file?, n.span? with
  | some file, some si =>
    some (decide (file = t.file) && decide (si.start_line ≤ t.line) &&
      decide (t.line ≤ si.end_line))
  | _, _ => none

/-- The value of `matches_node` where both unwraps are known to succeed. -/
def AssertionTarget.matches_nodeD (t : AssertionTarget) (n : Node) : Bool :=
  (t.matches_node n).getD false

/-- `itertools::unique` (used via `.unique()` in assert.rs): keep the first
occurrence of each element, tracking the already-seen ones. -/
def uniqueAux [DecidableEq α] (seen : List α) : List α → List α
  | [] => []
  | a :: l => if a ∈ seen then uniqueAux seen l else a :: uniqueAux (a :: seen) l

/-- `itertools::unique` on a whole list. -/
def uniqueList [DecidableEq α] (l : List α) : List α :=
  uniqueAux [] l

/-- Short-circuiting `Iterator::any` over a predicate whose evaluation can
panic (`none`). -/
def anyOpt (f : α → Option Bool) : List α → Option Bool
  | [] => some false
  | a :: l =>
    match f a with
    | none => none
    | some true => some true
    | some false => anyOpt f l

/-- `Iterator::filter` collected into a vector, over a predicate whose
evaluation can panic (`none`). -/
def filterOpt (f : α → Option Bool) : List α → Option (List α)
  | [] => some []
  | a :: l =>
    match f a with
    | none => none
    | some true => (filterOpt f l).map (a :: ·)
    | some false => filterOpt f l

/-- `AssertionSource::iter_references` (assert.rs lines 254-265): the nodes
of the source file that are references and whose source-info span contains
the source position (`.map(..).unwrap_or(false)` on the optional source
info); `contains` abstracts `lsp_positions::Span::contains`. -/
def iter_references (contains : Span → Pos → Bool) (nodes : List Node) (pos : Pos) :
    List Node :=
  nodes.filter (fun n => n.is_reference && ((n.span?.map (fun s => contains s pos)).getD false))

/-- `AssertionSource::iter_definitions` (assert.rs lines 227-238), as
`iter_references` but for definition nodes. -/
def iter_definitions (contains : Span → Pos → Bool) (nodes : List Node) (pos : Pos) :
    List Node :=
  nodes.filter (fun n => n.is_definition && ((n.span?.map (fun s => contains s pos)).getD false))

/-- `AssertionError` (assert.rs lines 356-414), restricted to the variants
the claims exercise and to the fields they mention. -/
inductive AssertionError (P : Type) where
  | noReferences : AssertionError P
  | incorrectlyDefined (references : List Node) (missing_targets : List AssertionTarget)
      (unexpected_paths : List P) : AssertionError P
  | incorrectDefinitions (missing_symbols : List Nat) (unexpected_symbols : List Nat) :
      AssertionError P
  deriving DecidableEq, Repr

/-- The shadowing filter of `Assertion::run_defined` (assert.rs lines
536-543): each stitched path of one reference's output is kept iff no path
of that same output shadows it. -/
def nonShadowed (shadows : P → P → Bool) (reference_paths : List P) : List P :=
  reference_paths.filter (fun p => reference_paths.all (fun q => !(shadows q p)))

/-- The `actual_paths` accumulation of `Assertion::run_defined` (assert.rs
lines 518-544): for each reference in order, the non-shadowed stitched
paths of that reference are appended. -/
def actual_paths_of (shadows : P → P → Bool) (stitch : Node → List P)
    (references : List Node) : List P :=
  references.flatMap (fun r => nonShadowed shadows (stitch r))

/-- `Assertion::run_defined` (assert.rs lines 499-578).  `stitch` is the
oracle for `ForwardPartialPathStitcher::find_all_complete_partial_paths`
seeded at one reference, `shadows` abstracts `PartialPath::shadows`,
`endNode` projects a path's end node, and `contains` abstracts span
containment (all three live outside the embedded sources).  The overall
result is `none` when the Rust code panics, i.e. when an `unwrap` inside
`matches_node` hits a node without file or source info. -/
def Assertion.run_defined (contains : Span → Pos → Bool) (shadows : P → P → Bool)
    (endNode : P → Node) (stitch : Node → List P) (nodes : List Node) (source_pos : Pos)
    (expected_targets : List AssertionTarget) :
    Option (Except (AssertionError P) Unit) :=
  let references := iter_references contains nodes source_pos
  if references.isEmpty then some (Except.error AssertionError.noReferences)
  else
    let actual_paths := actual_paths_of shadows stitch references
    match filterOpt
        (fun t => (anyOpt (fun p => t.matches_node (endNode p)) actual_paths).map (fun b => !b))
        expected_targets with
    | none => none
    | some missing0 =>
      let missing_targets := uniqueList missing0
      match filterOpt
          (fun p =>
            (anyOpt (fun t => t.matches_node (endNode p)) expected_targets).map (fun b => !b))
          actual_paths with
      | none => none
      | some unexpected_paths =>
        if missing_targets.isEmpty && unexpected_paths.isEmpty then some (Except.ok ())
        else some (Except.error
          (AssertionError.incorrectlyDefined references missing_targets unexpected_paths))

/-- The `actual_symbols` binding of `Assertion::run_defines` (assert.rs
lines 593-596): the symbols of the definition nodes at the source position
(`filter_map(|d| graph[d].symbol())`). -/
def actual_symbols_of (contains : Span → Pos → Bool) (nodes : List Node) (pos : Pos) :
    List Nat :=
  (iter_definitions contains nodes pos).filterMap (fun d => d.symbol?)

/-- `Assertion::run_defines` (assert.rs lines 586-622): gather the symbols
of all definition nodes at the source position and compare them, after
deduplication, with the expected symbols. -/
def Assertion.run_defines (contains : Span → Pos → Bool) (nodes : List Node)
    (source_pos : Pos) (expected_symbols : List Nat) : Except (AssertionError P) Unit :=
  let actual_symbols := actual_symbols_of contains nodes source_pos
  let missing_symbols :=
    uniqueList (expected_symbols.filter (fun x => !(decide (x ∈ actual_symbols))))
  let unexpected_symbols :=
    uniqueList (actual_symbols.filter (fun x => !(decide (x ∈ expected_symbols))))
  if missing_symbols.isEmpty && unexpected_symbols.isEmpty then Except.ok ()
  else Except.error (AssertionError.incorrectDefinitions missing_symbols unexpected_symbols)

/-! ### Concrete fixtures for the assertion-runner witnesses -/

/-- A span-containment test that holds everywhere. -/
def containsAll : Span → Nat → Bool := fun _ _ => true

/-- A reference node at line 3 of file 0. -/
def refNode : Node :=
  { is_definition := false, is_reference := true, symbol? := some 7,
    file? := some 0, span? := some ⟨3, 3⟩ }

/-- A definition node at line 5 of file 0. -/
def defNode : Node :=
  { is_definition := true, is_reference := false, symbol? := some 7,
    file? := some 0, span? := some ⟨5, 5⟩ }

/-- A node with neither file nor source info, like the root node. -/
def rootNode : Node :=
  { is_definition := false, is_reference := false, symbol? := none,
    file? := none, span? := none }

/-- Witness graph: one reference, one definition, the root. -/
def nodes0 : List Node := [refNode, defNode, rootNode]

/-- Witness stitcher oracle: the reference resolves along a single path. -/
def stitch0 : Node → List Nat := fun r => if r = refNode then [0] else []

/-- Witness end-node projection: every path ends at the definition node. -/
def endNode0 : Nat → Node := fun _ => defNode

/-- Witness shadowing relation: nothing shadows anything. -/
def shadows0 : Nat → Nat → Bool := fun _ _ => false

/-- Definition node carrying symbol 10 (`my_fn`). -/
def defMyFn : Node :=
  { is_definition := true, is_reference := false, symbol? := some 10,
    file? := some 0, span? := some ⟨1, 1⟩ }

/-- Definition node carrying symbol 11 (`x`). -/
def defX : Node :=
  { is_definition := true, is_reference := false, symbol? := some 11,
    file? := some 0, span? := some ⟨1, 1⟩ }

/-- Definition node carrying symbol 12 (`y`). -/
def defY : Node :=
  { is_definition := true, is_reference := false, symbol? := some 12,
    file? := some 0, span? := some ⟨1, 1⟩ }

/-- Witness graph for the Defines assertion scenario. -/
def nodesD : List Node := [defMyFn, defX, defY]

/-! ## Appending cycle detector (src/stack-graphs/src/cycles.rs) -/

/-- The operations consumed by `AppendingCycleDetector::is_cyclic`; the Rust
function is generic over the database and appendable types, and the
operations' implementations (`Appendable::start_node`/`end_node`/`append_to`,
`PartialPath::from_node`, `PartialPath::append_to`, `PartialPath::is_cyclic`)
live in `partial.rs` and `stitching.rs`, outside the embedded sources.
`A` is the appendage type, `PP` the partial-path type, `C` the `Cyclicity`
type, `E` the path-resolution error type. -/
structure CycleOps (A PP C E : Type) where
  startNode : A → Nat
  endNode : A → Nat
  append_to : A → PP → Except E PP
  appendPathTo : PP → PP → Except E PP
  from_node : Nat → PP
  edgesLen : PP → Nat
  cyclicOf : PP → Option C

/-- The "find cycle length" loop of `is_cyclic` (cycles.rs lines 500-515)
combined with the "collect prefix elements" loop (lines 517-525): scan the
remaining appendages front to back for the first one whose start node
equals the current end node; on a hit return the scanned appendages
(inclusive, in scan order — exactly the `cycle_length` popped elements)
together with the untouched rest, whose length bound drives termination of
the outer loop; `none` when the scan exhausts the list. -/
def splitCycle (startNode : A → Nat) (endN : Nat) :
    (l : List A) → Option (List A × { rest : List A // rest.length < l.length })
  | [] => none
  | a :: l =>
    if startNode a = endN then some ([a], ⟨l, by simp⟩)
    else (splitCycle startNode endN l).map
      (fun r => (a :: r.1, ⟨r.2.1, Nat.lt_trans r.2.2 (by simp)⟩))

/-- Building the concatenated prefix path (cycles.rs lines 528-537): start
from `from_node end_node` (the prefix starts at the end node, because it is
a cycle) and append the collected appendages oldest first (the Rust code
pops them from the end of the collection buffer, reversing the scan
order). -/
def buildPrePath (O : CycleOps A PP C E) (endN : Nat) (pres : List A) : Except E PP :=
  pres.reverse.foldlM (fun path a => O.append_to a path) (O.from_node endN)

/-- The outer `loop` of `is_cyclic` (cycles.rs lines 499-550): while a
prefix cycle exists, materialise the concatenated prefix path, append the
previously materialised cyclic path to it, record its cyclicity (when it
has edges), and continue on the remaining appendages. -/
def isCyclicLoop [DecidableEq C] (O : CycleOps A PP C E) (endN : Nat)
    (maybeCyclic : Option PP) (remaining : List A) (cycles : Finset C) :
    Except E (Finset C) :=
  match splitCycle O.startNode endN remaining with
  | none => Except.ok cycles
  | some (pres, rest) =>
    match buildPrePath O endN pres with
    | Except.error e => Except.error e
    | Except.ok prePath0 =>
      match O.appendPathTo (maybeCyclic.getD (O.from_node endN)) prePath0 with
      | Except.error e => Except.error e
      | Except.ok prePath =>
        let cycles' :=
          if 0 < O.edgesLen prePath then
            match O.cyclicOf prePath with
            | some c => insert c cycles
            | none => cycles
          else cycles
        isCyclicLoop O endN (some prePath) rest.1 cycles'
termination_by remaining.length
decreasing_by exact rest.2

/-- `AppendingCycleDetector::is_cyclic` (cycles.rs lines 471-551).  The
appendage list is most-recent-first (the Rust `List` is built by
`push_front`); the current end node is the end node of the most recently
appended element, and an empty list returns the empty cyclicity set
immediately. -/
def AppendingCycleDetector.is_cyclic [DecidableEq C] (O : CycleOps A PP C E)
    (appendages : List A) : Except E (Finset C) :=
  match appendages with
  | [] => Except.ok ∅
  | a :: _ => isCyclicLoop O (O.endNode a) none appendages ∅

/-- Concrete cycle-detector operations for the C7 witness: the single
appendage starts at node 1 and ends at node 0, so no prefix cycle exists. -/
def cycleOps0 : CycleOps Nat Nat Nat Unit :=
  { startNode := fun _ => 1, endNode := fun _ => 0,
    append_to := fun _ p => Except.ok p, appendPathTo := fun _ p => Except.ok p,
    from_node := fun n => n, edgesLen := fun _ => 0, cyclicOf := fun _ => none }

/-! ## Cancellation (src/stack-graphs/src/lib.rs) -/

/-- `CancellationError` (lib.rs line 164): carries the checkpoint name. -/
structure CancellationError where
  at_ : String
  deriving DecidableEq, Repr

/-- `NoCancellation::check` (lib.rs lines 132-137): a no-op. -/
def NoCancellation.check (_at_ : String) : Except CancellationError Unit :=
  Except.ok ()

/-- `CancelAfterDuration` (lib.rs lines 139-151): a duration limit and the
monotonic start instant, both in abstract time units. -/
structure CancelAfterDuration where
  limit : Nat
  start : Nat
  deriving DecidableEq, Repr

/-- `Instant::elapsed`, with the current instant `now` of the monotonic
clock made an explicit argument. -/
def CancelAfterDuration.elapsed (c : CancelAfterDuration) (now : Nat) : Nat :=
  now - c.start

/-- `CancelAfterDuration::check` (lib.rs lines 153-160): an error carrying
the checkpoint name when the elapsed time strictly exceeds the limit. -/
def CancelAfterDuration.check (c : CancelAfterDuration) (now : Nat) (at_ : String) :
    Except CancellationError Unit :=
  if c.limit < c.elapsed now then Except.error (CancellationError.mk at_)
  else Except.ok ()

/-! ## Serialization filter (src/stack-graphs/src/serde/filter.rs) -/

/-- The `Filter` trait (filter.rs lines 206-273) as a record of the wrapped
filter's four methods; the graph argument, fixed along each call chain, is
curried away, and node handles carry their data (`Node`). -/
structure Filter (P : Type) where
  include_file : Nat → Bool
  include_node : Node → Bool
  include_edge : Node → Node → Bool
  include_partial_path : P → Bool

/-- The view of a partial path consumed by the implication filter's
`include_partial_path`: the source nodes of its edges (in the order
`edges.iter_unordered` yields them, resolved via `node_for_id`) and its end
node.  (`PartialPath` itself lives in `partial.rs`, outside the embedded
sources.) -/
structure PartialPathView where
  edge_sources : List Node
  end_node : Node
  deriving DecidableEq, Repr

/-- `ImplicationFilter::include_file` (filter.rs lines 443-445): delegates
to the wrapped filter. -/
def ImplicationFilter.include_file (F : Filter P) (file : Nat) : Bool :=
  F.include_file file

/-- `ImplicationFilter::include_node` (filter.rs lines 447-453): a node of
a rejected file is excluded (`map_or(true, ..)` on the node id's optional
file), and the wrapped filter must accept the node. -/
def ImplicationFilter.include_node (F : Filter P) (n : Node) : Bool :=
  ((n.file?.map (fun f => ImplicationFilter.include_file F f)).getD true) &&
    F.include_node n

/-- `ImplicationFilter::include_edge` (filter.rs lines 455-459): both
endpoints must be included nodes, and the wrapped filter must accept the
edge. -/
def ImplicationFilter.include_edge (F : Filter P) (source sink : Node) : Bool :=
  ImplicationFilter.include_node F source && ImplicationFilter.include_node F sink &&
    F.include_edge source sink

/-- `Itertools::tuple_windows` for pairs: the consecutive pairs of a
list. -/
def tupleWindows (l : List Node) : List (Node × Node) :=
  l.zip l.tail

/-- `ImplicationFilter::include_partial_path` (filter.rs lines 461-482):
the wrapped filter must accept the path, and every consecutive pair of the
sequence formed by the edges' source nodes followed by the end node must be
an included edge. -/
def ImplicationFilter.include_partial_path (F : Filter PartialPathView)
    (p : PartialPathView) : Bool :=
  F.include_partial_path p &&
    (tupleWindows (p.edge_sources ++ [p.end_node])).all
      (fun st => ImplicationFilter.include_edge F st.1 st.2)

/-- Concrete wrapped filter for the C10 witness: rejects every file,
accepts everything else. -/
def filterNone : Filter PartialPathView :=
  { include_file := fun _ => false, include_node := fun _ => true,
    include_edge := fun _ _ => true, include_partial_path := fun _ => true }

end StackGraphs

namespace StackGraphs

/-! ### Lemmas about the bucket scan -/

theorem add_path_bucket_cons_lt (cmp : P → P → Option Ordering) (path other : P)
    (rest : List P) (hc : cmp path other = some Ordering.lt) :
    add_path_bucket cmp path (other :: rest) = add_path_bucket cmp path rest := by
  simp [add_path_bucket, hc]

theorem add_path_bucket_cons_similar (cmp : P → P → Option Ordering) (path other : P)
    (rest : List P) (hc : isSimilarCmp (cmp path other) = true) :
    add_path_bucket cmp path (other :: rest) = (other :: rest, true) := by
  cases hcc : cmp path other with
  | none => rw [hcc] at hc; simp [isSimilarCmp] at hc
  | some o =>
    cases o with
    | lt => rw [hcc] at hc; simp [isSimilarCmp] at hc
    | eq => simp [add_path_bucket, hcc]
    | gt => simp [add_path_bucket, hcc]

theorem add_path_bucket_cons_none (cmp : P → P → Option Ordering) (path other : P)
    (rest : List P) (hc : cmp path other = none) :
    add_path_bucket cmp path (other :: rest) =
      (other :: (add_path_bucket cmp path rest).1, (add_path_bucket cmp path rest).2) := by
  simp [add_path_bucket, hc]

theorem lookupBucket_filter_ne [DecidableEq K] (d : List (K × List P)) (k k' : K)
    (h : k' ≠ k) :
    lookupBucket (d.filter (fun e => !(decide (e.1 = k)))) k' = lookupBucket d k' := by
  induction d with
  | nil => rfl
  | cons e d ih =>
    by_cases he : e.1 = k
    · rw [List.filter_cons_of_neg (by simp [he]), ih]
      simp only [lookupBucket]
      rw [if_neg (fun hek : e.1 = k' => h (hek ▸ he))]
    · rw [List.filter_cons_of_pos (by simp [he])]
      simp only [lookupBucket, ih]

theorem lookupBucket_setBucket [DecidableEq K] (d : List (K × List P)) (k k' : K)
    (b : List P) :
    lookupBucket (setBucket d k b) k' = if k = k' then b else lookupBucket d k' := by
  by_cases h : k = k'
  · simp [setBucket, lookupBucket, h]
  · simp only [setBucket, lookupBucket, h, if_neg h]
    exact lookupBucket_filter_ne d k k' (fun hk => h hk.symm)

/-- Case "no stored path is similar": every `Less` path is removed, every
`None` path is kept, the new path is appended, and the scan result is
`false`. -/
theorem add_path_bucket_no_similar (cmp : P → P → Option Ordering) (path : P)
    (b : List P) (h : ∀ x ∈ b, isSimilarCmp (cmp path x) = false) :
    add_path_bucket cmp path b =
      (b.filter (fun x => (cmp path x).isNone) ++ [path], false) := by
  induction b with
  | nil => rfl
  | cons other rest ih =>
    have hother := h other (List.mem_cons_self other rest)
    have hrest : ∀ x ∈ rest, isSimilarCmp (cmp path x) = false :=
      fun x hx => h x (List.mem_cons_of_mem other hx)
    cases hc : cmp path other with
    | none =>
      rw [add_path_bucket_cons_none cmp path other rest hc, ih hrest,
        List.filter_cons_of_pos (by simp [hc]), List.cons_append]
    | some o =>
      cases o with
      | lt =>
        rw [add_path_bucket_cons_lt cmp path other rest hc, ih hrest,
          List.filter_cons_of_neg (by simp [hc])]
      | eq => rw [hc] at hother; simp [isSimilarCmp] at hother
      | gt => rw [hc] at hother; simp [isSimilarCmp] at hother

/-- Case "some stored path is similar": writing the bucket as
`l1 ++ o :: l2` where `o` is the first stored path comparing
`Equal`/`Greater`, the `Less` paths of `l1` are removed, the scan stops at
`o`, the paths after `o` are untouched, the new path is not stored, and the
scan result is `true`. -/
theorem add_path_bucket_first_similar (cmp : P → P → Option Ordering) (path : P)
    (l1 : List P) (o : P) (l2 : List P)
    (h1 : ∀ x ∈ l1, isSimilarCmp (cmp path x) = false)
    (ho : isSimilarCmp (cmp path o) = true) :
    add_path_bucket cmp path (l1 ++ o :: l2) =
      (l1.filter (fun x => (cmp path x).isNone) ++ o :: l2, true) := by
  induction l1 with
  | nil => simpa using add_path_bucket_cons_similar cmp path o l2 ho
  | cons x l1 ih =>
    have hx := h1 x (List.mem_cons_self x l1)
    have hl1 : ∀ y ∈ l1, isSimilarCmp (cmp path y) = false :=
      fun y hy => h1 y (List.mem_cons_of_mem x hy)
    cases hc : cmp path x with
    | none =>
      rw [List.cons_append, add_path_bucket_cons_none cmp path x _ hc, ih hl1,
        List.filter_cons_of_pos (by simp [hc]), List.cons_append]
    | some o2 =>
      cases o2 with
      | lt =>
        rw [List.cons_append, add_path_bucket_cons_lt cmp path x _ hc, ih hl1,
          List.filter_cons_of_neg (by simp [hc])]
      | eq => rw [hc] at hx; simp [isSimilarCmp] at hx
      | gt => rw [hc] at hx; simp [isSimilarCmp] at hx

/-- Any bucket with a similar stored path splits at the first such path. -/
theorem exists_first_similar (cmp : P → P → Option Ordering) (path : P)
    (b : List P) (h : ∃ x ∈ b, isSimilarCmp (cmp path x) = true) :
    ∃ l1 o l2, b = l1 ++ o :: l2 ∧
      (∀ x ∈ l1, isSimilarCmp (cmp path x) = false) ∧
      isSimilarCmp (cmp path o) = true := by
  induction b with
  | nil => obtain ⟨x, hx, _⟩ := h; exact absurd hx (List.not_mem_nil x)
  | cons y b ih =>
    by_cases hy : isSimilarCmp (cmp path y) = true
    · exact ⟨[], y, b, rfl, by intro x hx; exact absurd hx (List.not_mem_nil x), hy⟩
    · have hb : ∃ x ∈ b, isSimilarCmp (cmp path x) = true := by
        obtain ⟨x, hx, hsim⟩ := h
        rcases List.mem_cons.mp hx with rfl | hx
        · exact absurd hsim hy
        · exact ⟨x, hx, hsim⟩
      obtain ⟨l1, o, l2, rfl, hl1, ho⟩ := ih hb
      refine ⟨y :: l1, o, l2, rfl, ?_, ho⟩
      intro x hx
      rcases List.mem_cons.mp hx with rfl | hx
      · exact Bool.not_eq_true _ ▸ hy
      · exact hl1 x hx

/-- Preservation of pairwise incomparability by one bucket scan. -/
theorem add_path_bucket_pairwiseIncomp (cmp : P → P → Option Ordering)
    (hswap : CmpSwapConsistent cmp) (path : P) (b : List P)
    (hb : PairwiseIncomp cmp b) :
    PairwiseIncomp cmp (add_path_bucket cmp path b).1 := by
  by_cases hsim : ∃ y ∈ b, isSimilarCmp (cmp path y) = true
  · obtain ⟨l1, o, l2, rfl, hl1, ho⟩ := exists_first_similar cmp path b hsim
    rw [add_path_bucket_first_similar cmp path l1 o l2 hl1 ho]
    intro p hp q hq hpq
    have hmem : ∀ x ∈ l1.filter (fun x => (cmp path x).isNone) ++ o :: l2,
        x ∈ l1 ++ o :: l2 := by
      intro x hx
      rcases List.mem_append.mp hx with hx | hx
      · exact List.mem_append.mpr (Or.inl (List.mem_filter.mp hx).1)
      · exact List.mem_append.mpr (Or.inr hx)
    exact hb p (hmem p hp) q (hmem q hq) hpq
  · push_neg at hsim
    have h : ∀ y ∈ b, isSimilarCmp (cmp path y) = false := by
      intro y hy; exact Bool.not_eq_true _ ▸ (hsim y hy)
    rw [add_path_bucket_no_similar cmp path b h]
    intro p hp q hq hpq
    rcases List.mem_append.mp hp with hp | hp
    · rcases List.mem_append.mp hq with hq | hq
      · exact hb p (List.mem_filter.mp hp).1 q (List.mem_filter.mp hq).1 hpq
      · have hq' : q = path := List.mem_singleton.mp hq
        have hpnone : cmp path p = none :=
          Option.isNone_iff_eq_none.mp (List.mem_filter.mp hp).2
        rw [hq', hswap path p, hpnone]
        rfl
    · have hp' : p = path := List.mem_singleton.mp hp
      rcases List.mem_append.mp hq with hq | hq
      · have hqnone : cmp path q = none :=
          Option.isNone_iff_eq_none.mp (List.mem_filter.mp hq).2
        rw [hp']
        exact hqnone
      · exact absurd ((List.mem_singleton.mp hp).trans (List.mem_singleton.mp hq).symm) hpq

/-- The detector-wide invariant: every bucket is pairwise incomparable. -/
theorem add_path_preserves_invariant [DecidableEq K] (key : P → K)
    (cmp : P → P → Option Ordering) (hswap : CmpSwapConsistent cmp)
    (d : List (K × List P)) (path : P)
    (hd : ∀ k, PairwiseIncomp cmp (lookupBucket d k)) (k : K) :
    PairwiseIncomp cmp (lookupBucket (SimilarPathDetector.add_path key cmp d path).1 k) := by
  show PairwiseIncomp cmp (lookupBucket (setBucket d (key path) _) k)
  rw [lookupBucket_setBucket]
  by_cases hk : key path = k
  · rw [if_pos hk]
    exact add_path_bucket_pairwiseIncomp cmp hswap path _ (hd (key path))
  · rw [if_neg hk]
    exact hd k

/-! ### Claims C1 and C4 -/

/-- Claim C1, counterexample.  The claim states that every stored path
comparing `Some(Less)` with the new path is removed, and that the returned
boolean signals "process" exactly when the new path was stored.  Both parts
fail on the concrete input where the bucket of the new path `2` is `[0, 1]`
and `cmp` compares `2` `Equal` to `0` and `Less` than `1`: the scan stops at
`0`, so `1` is not removed, and the call returns `true` although `2` was not
stored. -/
theorem C1_add_path_counterexample :
    ¬ (let b := lookupBucket [((0 : Nat), [(0 : Nat), 1])] (key0 2)
       let r := SimilarPathDetector.add_path key0 cmp0 [((0 : Nat), [(0 : Nat), 1])] 2
       let b' := lookupBucket r.1 (key0 2)
       (∀ o ∈ b, cmp0 2 o = some Ordering.lt → o ∉ b') ∧
       (∀ o ∈ b, cmp0 2 o = none → o ∈ b') ∧
       ((∃ o ∈ b, isSimilarCmp (cmp0 2 o) = true) → (2 : Nat) ∉ b') ∧
       ((∀ o ∈ b, isSimilarCmp (cmp0 2 o) = false) → (2 : Nat) ∈ b') ∧
       (r.2 = true ↔ (2 : Nat) ∈ b')) := by
  decide

/-- Claim C1, amended.  `SimilarPathDetector::add_path` scans the similarity
bucket of the new path front to back.  If no stored path compares
`Some(Equal)` or `Some(Greater)`, every stored path comparing `Some(Less)` is
removed, paths comparing `None` are kept, the new path is appended to the
bucket, and `false` is returned.  Otherwise, writing the bucket as
`l1 ++ o :: l2` with `o` the first stored path comparing `Equal`/`Greater`,
the `Less`-comparing paths of `l1` are removed, the scan stops at `o` (paths
after `o` are not examined, so a later `Less`-comparing path survives), the
new path is not stored, and `true` is returned.  Thus the returned boolean
signals that a similar equal-or-better path was already present, i.e. it is
`true` exactly when the path was NOT stored. -/
theorem C1_add_path_amended [DecidableEq K] (key : P → K)
    (cmp : P → P → Option Ordering) (d : List (K × List P)) (path : P) :
    ((∀ x ∈ lookupBucket d (key path), isSimilarCmp (cmp path x) = false) →
      SimilarPathDetector.add_path key cmp d path =
        (setBucket d (key path)
          ((lookupBucket d (key path)).filter (fun x => (cmp path x).isNone) ++ [path]),
         false)) ∧
    (∀ l1 o l2, lookupBucket d (key path) = l1 ++ o :: l2 →
      (∀ x ∈ l1, isSimilarCmp (cmp path x) = false) →
      isSimilarCmp (cmp path o) = true →
      SimilarPathDetector.add_path key cmp d path =
        (setBucket d (key path) (l1.filter (fun x => (cmp path x).isNone) ++ o :: l2),
         true)) := by
  constructor
  · intro h
    simp only [SimilarPathDetector.add_path]
    rw [add_path_bucket_no_similar cmp path _ h]
  · intro l1 o l2 hb h1 ho
    simp only [SimilarPathDetector.add_path]
    rw [hb, add_path_bucket_first_similar cmp path l1 o l2 h1 ho]

/-- Witness for C1 (amended), first case: adding path `5` to a fresh
detector stores it and returns `false`. -/
theorem C1_add_path_amended_witness :
    (∀ x ∈ lookupBucket ([] : List (Nat × List Nat)) (key0 5),
        isSimilarCmp (cmp0 5 x) = false) ∧
    SimilarPathDetector.add_path key0 cmp0 [] 5 =
      (setBucket ([] : List (Nat × List Nat)) (key0 5)
        ((lookupBucket ([] : List (Nat × List Nat)) (key0 5)).filter
          (fun x => (cmp0 5 x).isNone) ++ [5]),
       false) :=
  ⟨by decide, (C1_add_path_amended key0 cmp0 [] 5).1 (by decide)⟩

/-- Claim C4: starting from a fresh `SimilarPathDetector`, for every sequence
of `add_path` calls with one fixed deterministic comparison function that is
(at least) swap-consistent — as any strict partial order comparator, in
particular the shadowing order, is — after every call no bucket contains two
distinct retained paths that compare other than `None`: all paths retained
under the same similarity key are pairwise incomparable.  ("After every
call" is covered because every prefix of a call sequence is itself a call
sequence.) -/
theorem C4_detector_pairwise_incomparable [DecidableEq K] (key : P → K)
    (cmp : P → P → Option Ordering) (hswap : CmpSwapConsistent cmp)
    (inputs : List P) (k : K) :
    PairwiseIncomp cmp (lookupBucket (SimilarPathDetector.addAll key cmp inputs) k) := by
  suffices h : ∀ d, (∀ k, PairwiseIncomp cmp (lookupBucket d k)) →
      ∀ k, PairwiseIncomp cmp
        (lookupBucket
          (inputs.foldl (fun d p => (SimilarPathDetector.add_path key cmp d p).1) d) k) by
    exact h [] (fun k => by simp [lookupBucket, PairwiseIncomp]) k
  induction inputs with
  | nil => intro d hd k; exact hd k
  | cons p ps ih =>
    intro d hd k
    simp only [List.foldl_cons]
    exact ih _ (add_path_preserves_invariant key cmp hswap d p hd) k

/-- Witness for C4: a concrete swap-consistent comparison function and a
concrete call sequence, with the invariant instantiated at the bucket of
key `0`. -/
theorem C4_detector_pairwise_incomparable_witness :
    CmpSwapConsistent cmpEqOnly ∧
    PairwiseIncomp cmpEqOnly
      (lookupBucket (SimilarPathDetector.addAll keyB cmpEqOnly [true, false, true]) 0) :=
  ⟨by intro p q; cases p <;> cases q <;> rfl,
   C4_detector_pairwise_incomparable keyB cmpEqOnly
     (by intro p q; cases p <;> cases q <;> rfl) [true, false, true] 0⟩

/-! ### Lemmas about the assertion runner -/

theorem uniqueList_isEmpty [DecidableEq α] (l : List α) :
    (uniqueList l).isEmpty = l.isEmpty := by
  cases l <;> simp [uniqueList, uniqueAux]

theorem filter_not_isEmpty_eq_all (l : List α) (g : α → Bool) :
    (l.filter (fun x => !(g x))).isEmpty = l.all g := by
  cases h : l.all g with
  | true =>
    have hnil : l.filter (fun x => !(g x)) = [] := by
      rw [List.filter_eq_nil_iff]
      intro a ha
      simp [List.all_eq_true.mp h a ha]
    simp [hnil]
  | false =>
    obtain ⟨x, hx, hgx⟩ := List.all_eq_false.mp h
    have hgx' : g x = false := Bool.not_eq_true _ ▸ hgx
    have hne : l.filter (fun x => !(g x)) ≠ [] := by
      intro hnil
      rw [List.filter_eq_nil_iff] at hnil
      exact hnil x hx (by simp [hgx'])
    exact List.isEmpty_eq_false.mpr hne

theorem uniqueList_filter_not_isEmpty [DecidableEq α] (l : List α) (g : α → Bool) :
    (uniqueList (l.filter (fun x => !(g x)))).isEmpty = l.all g := by
  rw [uniqueList_isEmpty, filter_not_isEmpty_eq_all]

theorem matches_node_eq_some (t : AssertionTarget) (n : Node)
    (hf : n.file? ≠ none) (hs : n.span? ≠ none) :
    t.matches_node n = some (t.matches_nodeD n) := by
  cases hf' : n.file? with
  | none => exact absurd hf' hf
  | some f =>
    cases hs' : n.span? with
    | none => exact absurd hs' hs
    | some s =>
      simp [AssertionTarget.matches_node, AssertionTarget.matches_nodeD, hf', hs']

theorem anyOpt_eq_any (f : α → Option Bool) (g : α → Bool) (l : List α)
    (h : ∀ a ∈ l, f a = some (g a)) : anyOpt f l = some (l.any g) := by
  induction l with
  | nil => rfl
  | cons a l ih =>
    have ha := h a (List.mem_cons_self a l)
    have hl : ∀ x ∈ l, f x = some (g x) := fun x hx => h x (List.mem_cons_of_mem a hx)
    cases hg : g a with
    | true => rw [hg] at ha; simp [anyOpt, ha, List.any_cons, hg]
    | false => rw [hg] at ha; simp [anyOpt, ha, ih hl, List.any_cons, hg]

theorem filterOpt_eq_filter (f : α → Option Bool) (g : α → Bool) (l : List α)
    (h : ∀ a ∈ l, f a = some (g a)) : filterOpt f l = some (l.filter g) := by
  induction l with
  | nil => rfl
  | cons a l ih =>
    have ha := h a (List.mem_cons_self a l)
    have hl : ∀ x ∈ l, f x = some (g x) := fun x hx => h x (List.mem_cons_of_mem a hx)
    cases hg : g a with
    | true =>
      rw [hg] at ha
      simp [filterOpt, ha, ih hl, List.filter_cons_of_pos hg]
    | false =>
      rw [hg] at ha
      have hneg : ¬ (g a = true) := by simp [hg]
      rw [List.filter_cons_of_neg hneg]
      simp [filterOpt, ha, ih hl]

/-! ### Claims C2, C5, C9 -/

/-- Claim C2: in the Defined-assertion runner, a complete path `p` produced
by the stitcher for a reference `r` survives the shadowing filter if and
only if no path `q` of that same reference's stitcher output satisfies
`q.shadows(p)` — the surviving set is exactly the set of non-shadowed
paths — and every surviving path enters `actual_paths`. -/
theorem C2_shadowing_filter (shadows : P → P → Bool) (stitch : Node → List P)
    (references : List Node) (r : Node) (p : P)
    (hr : r ∈ references) (hp : p ∈ stitch r) :
    ((p ∈ nonShadowed shadows (stitch r) ↔ ∀ q ∈ stitch r, shadows q p = false) ∧
     (p ∈ nonShadowed shadows (stitch r) →
       p ∈ actual_paths_of shadows stitch references)) := by
  constructor
  · simp only [nonShadowed, List.mem_filter, hp, true_and, List.all_eq_true,
      Bool.not_eq_true']
  · intro h
    simp only [actual_paths_of, List.mem_flatMap]
    exact ⟨r, hr, h⟩

/-- Witness for C2: with a trivial shadowing relation, the single stitched
path of the reference node survives the filter and enters
`actual_paths`. -/
theorem C2_shadowing_filter_witness :
    (refNode ∈ [refNode] ∧ (0 : Nat) ∈ stitch0 refNode) ∧
    (((0 : Nat) ∈ nonShadowed shadows0 (stitch0 refNode) ↔
        ∀ q ∈ stitch0 refNode, shadows0 q 0 = false) ∧
     ((0 : Nat) ∈ nonShadowed shadows0 (stitch0 refNode) →
       (0 : Nat) ∈ actual_paths_of shadows0 stitch0 [refNode])) :=
  ⟨⟨by decide, by decide⟩,
   C2_shadowing_filter shadows0 stitch0 [refNode] refNode 0 (by decide) (by decide)⟩

/-- Claim C5: for every node that belongs to a file and has recorded source
info, `AssertionTarget::matches_node` returns `true` if and only if the
node's file equals the target's file and the target's line lies between the
node's span start line and span end line inclusive. -/
theorem C5_matches_node (t : AssertionTarget) (n : Node) (f : Nat) (s : Span)
    (hf : n.file? = some f) (hs : n.span? = some s) :
    (t.matches_node n = some true ↔
      (f = t.file ∧ s.start_line ≤ t.line ∧ t.line ≤ s.end_line)) := by
  simp [AssertionTarget.matches_node, hf, hs, Bool.and_eq_true, decide_eq_true_eq,
    and_assoc]

/-- Witness for C5: the definition node at line 5 of file 0 matches the
target `file 0, line 5`. -/
theorem C5_matches_node_witness :
    defNode.file? = some 0 ∧ defNode.span? = some ⟨5, 5⟩ ∧
    ((AssertionTarget.mk 0 5).matches_node defNode = some true ↔
      ((0 : Nat) = 0 ∧ 5 ≤ 5 ∧ 5 ≤ 5)) :=
  ⟨rfl, rfl, C5_matches_node ⟨0, 5⟩ defNode 0 ⟨5, 5⟩ rfl rfl⟩

/-- Claim C9: `matches_node` unconditionally unwraps the node's file and
source info, so for the root node, or any node missing either, it does not
return `false` — it has no result at all (the Rust code panics), which is
why the Defined-assertion comparison requires every compared end node to
carry a file and source info (hypothesis `hinfo` of the C3 theorem). -/
theorem C9_matches_node_undefined (t : AssertionTarget) (n : Node)
    (h : n.file? = none ∨ n.span? = none) :
    t.matches_node n = none ∧ t.matches_node n ≠ some false := by
  have hnone : t.matches_node n = none := by
    rcases h with h | h
    · simp [AssertionTarget.matches_node, h]
    · cases hf : n.file? <;> simp [AssertionTarget.matches_node, h, hf]
  exact ⟨hnone, by simp [hnone]⟩

/-- Witness for C9: the root node has neither file nor source info, and
`matches_node` on it yields no result. -/
theorem C9_matches_node_undefined_witness :
    (rootNode.file? = none ∨ rootNode.span? = none) ∧
    ((AssertionTarget.mk 0 0).matches_node rootNode = none ∧
      (AssertionTarget.mk 0 0).matches_node rootNode ≠ some false) :=
  ⟨Or.inl rfl, C9_matches_node_undefined ⟨0, 0⟩ rootNode (Or.inl rfl)⟩

/-! ### Claim C6 -/

/-- Claim C6: `Assertion::run` on a Defines assertion returns `Ok(())` if
and only if the deduplicated set of symbols carried by the definition nodes
whose span contains the source position equals the deduplicated expected
symbol set; otherwise it returns `IncorrectDefinitions` whose
`missing_symbols` are the deduplicated expected symbols not among the actual
symbols and whose `unexpected_symbols` are the deduplicated actual symbols
not among the expected ones.  (The concrete `my_fn`/`x`/`y` scenario of the
claim is exhibited by the witness theorem.) -/
theorem C6_run_defines {Pos P : Type} (contains : Span → Pos → Bool) (nodes : List Node)
    (source_pos : Pos) (expected_symbols : List Nat) :
    (Assertion.run_defines (P := P) contains nodes source_pos expected_symbols =
      (if expected_symbols.all
            (fun x => decide (x ∈ actual_symbols_of contains nodes source_pos)) &&
          (actual_symbols_of contains nodes source_pos).all
            (fun x => decide (x ∈ expected_symbols))
        then Except.ok ()
        else Except.error (AssertionError.incorrectDefinitions
          (uniqueList (expected_symbols.filter
            (fun x => !(decide (x ∈ actual_symbols_of contains nodes source_pos)))))
          (uniqueList ((actual_symbols_of contains nodes source_pos).filter
            (fun x => !(decide (x ∈ expected_symbols)))))))) ∧
    (Assertion.run_defines (P := P) contains nodes source_pos expected_symbols =
        Except.ok () ↔
      ∀ s : Nat, s ∈ actual_symbols_of contains nodes source_pos ↔ s ∈ expected_symbols) := by
  have heq : Assertion.run_defines (P := P) contains nodes source_pos expected_symbols =
      (if expected_symbols.all
            (fun x => decide (x ∈ actual_symbols_of contains nodes source_pos)) &&
          (actual_symbols_of contains nodes source_pos).all
            (fun x => decide (x ∈ expected_symbols))
        then Except.ok ()
        else Except.error (AssertionError.incorrectDefinitions
          (uniqueList (expected_symbols.filter
            (fun x => !(decide (x ∈ actual_symbols_of contains nodes source_pos)))))
          (uniqueList ((actual_symbols_of contains nodes source_pos).filter
            (fun x => !(decide (x ∈ expected_symbols))))))) := by
    simp only [Assertion.run_defines]
    rw [uniqueList_filter_not_isEmpty expected_symbols
        (fun x => decide (x ∈ actual_symbols_of contains nodes source_pos)),
      uniqueList_filter_not_isEmpty (actual_symbols_of contains nodes source_pos)
        (fun x => decide (x ∈ expected_symbols))]
  refine ⟨heq, ?_⟩
  rw [heq]
  by_cases hcond : (expected_symbols.all
      (fun x => decide (x ∈ actual_symbols_of contains nodes source_pos)) &&
    (actual_symbols_of contains nodes source_pos).all
      (fun x => decide (x ∈ expected_symbols))) = true
  · rw [if_pos hcond]
    rw [Bool.and_eq_true] at hcond
    obtain ⟨h1, h2⟩ := hcond
    constructor
    · intro _ s
      constructor
      · intro hs
        exact of_decide_eq_true (List.all_eq_true.mp h2 s hs)
      · intro hs
        exact of_decide_eq_true (List.all_eq_true.mp h1 s hs)
    · intro _
      rfl
  · rw [if_neg hcond]
    constructor
    · intro h
      exact absurd h (by simp)
    · intro hiff
      exfalso
      apply hcond
      rw [Bool.and_eq_true]
      refine ⟨List.all_eq_true.mpr ?_, List.all_eq_true.mpr ?_⟩
      · intro s hs
        exact decide_eq_true ((hiff s).mpr hs)
      · intro s hs
        exact decide_eq_true ((hiff s).mp hs)

/-- Witness for C6, the claim's concrete scenario: at a position whose
definition nodes carry symbols 10 (`my_fn`), 11 (`x`) and 12 (`y`),
`Defines(pos, [my_fn])` fails with empty missing symbols and unexpected
symbols `x`, `y`. -/
theorem C6_run_defines_witness :
    Assertion.run_defines (P := PUnit) containsAll nodesD (0 : Nat) [10] =
      Except.error (AssertionError.incorrectDefinitions [] [11, 12]) := by
  have h := (C6_run_defines (P := PUnit) containsAll nodesD (0 : Nat) [10]).1
  rw [h]
  rfl

/-! ### Claim C3 -/

/-- Claim C3: for a Defined assertion with at least one reference node
whose span contains the source position (`hne`), and with every stitched
path ending at a node that carries a file and source info (`hinfo`; without
this the comparison panics, claim C9), `Assertion::run` returns `Ok(())` if
and only if every expected target matches the end node of some surviving
(non-shadowed) path and every surviving path's end node matches some
expected target; otherwise it returns `IncorrectlyDefined` whose
`missing_targets` are exactly the deduplicated expected targets matched by
no surviving path's end node and whose `unexpected_paths` are exactly the
surviving paths whose end node matches no expected target. -/
theorem C3_run_defined {Pos P : Type} (contains : Span → Pos → Bool)
    (shadows : P → P → Bool) (endNode : P → Node) (stitch : Node → List P)
    (nodes : List Node) (source_pos : Pos) (expected_targets : List AssertionTarget)
    (hne : iter_references contains nodes source_pos ≠ [])
    (hinfo : ∀ r ∈ iter_references contains nodes source_pos, ∀ p ∈ stitch r,
      (endNode p).file? ≠ none ∧ (endNode p).span? ≠ none) :
    (Assertion.run_defined contains shadows endNode stitch nodes source_pos
        expected_targets =
      (if (uniqueList (expected_targets.filter (fun t =>
            !((actual_paths_of shadows stitch (iter_references contains nodes source_pos)).any
              (fun p => t.matches_nodeD (endNode p)))))).isEmpty &&
          ((actual_paths_of shadows stitch (iter_references contains nodes source_pos)).filter
            (fun p => !(expected_targets.any (fun t => t.matches_nodeD (endNode p))))).isEmpty
        then some (Except.ok ())
        else some (Except.error (AssertionError.incorrectlyDefined
          (iter_references contains nodes source_pos)
          (uniqueList (expected_targets.filter (fun t =>
            !((actual_paths_of shadows stitch (iter_references contains nodes source_pos)).any
              (fun p => t.matches_nodeD (endNode p))))))
          ((actual_paths_of shadows stitch (iter_references contains nodes source_pos)).filter
            (fun p => !(expected_targets.any (fun t => t.matches_nodeD (endNode p))))))))) ∧
    (Assertion.run_defined contains shadows endNode stitch nodes source_pos
        expected_targets = some (Except.ok ()) ↔
      ((∀ t ∈ expected_targets,
          ∃ p ∈ actual_paths_of shadows stitch (iter_references contains nodes source_pos),
            t.matches_nodeD (endNode p) = true) ∧
       (∀ p ∈ actual_paths_of shadows stitch (iter_references contains nodes source_pos),
          ∃ t ∈ expected_targets, t.matches_nodeD (endNode p) = true))) := by
  have hinfo' : ∀ p ∈ actual_paths_of shadows stitch (iter_references contains nodes source_pos),
      (endNode p).file? ≠ none ∧ (endNode p).span? ≠ none := by
    intro p hp
    simp only [actual_paths_of, List.mem_flatMap, nonShadowed, List.mem_filter] at hp
    obtain ⟨r, hr, hpr, _⟩ := hp
    exact hinfo r hr p hpr
  have hmf : ∀ (t : AssertionTarget),
      ∀ p ∈ actual_paths_of shadows stitch (iter_references contains nodes source_pos),
      t.matches_node (endNode p) = some (t.matches_nodeD (endNode p)) :=
    fun t p hp => matches_node_eq_some t (endNode p) (hinfo' p hp).1 (hinfo' p hp).2
  have hfil1 : filterOpt (fun t =>
        (anyOpt (fun p => t.matches_node (endNode p))
          (actual_paths_of shadows stitch (iter_references contains nodes source_pos))).map
          (fun b => !b))
      expected_targets =
      some (expected_targets.filter (fun t =>
        !((actual_paths_of shadows stitch (iter_references contains nodes source_pos)).any
          (fun p => t.matches_nodeD (endNode p))))) := by
    apply filterOpt_eq_filter
    intro t _
    rw [anyOpt_eq_any (fun p => t.matches_node (endNode p))
        (fun p => t.matches_nodeD (endNode p)) _ (fun p hp => hmf t p hp)]
    rfl
  have hfil2 : filterOpt (fun p =>
        (anyOpt (fun t => t.matches_node (endNode p)) expected_targets).map (fun b => !b))
      (actual_paths_of shadows stitch (iter_references contains nodes source_pos)) =
      some ((actual_paths_of shadows stitch (iter_references contains nodes source_pos)).filter
        (fun p => !(expected_targets.any (fun t => t.matches_nodeD (endNode p))))) := by
    apply filterOpt_eq_filter
    intro p hp
    rw [anyOpt_eq_any (fun t => t.matches_node (endNode p))
        (fun t => t.matches_nodeD (endNode p)) _ (fun t _ => hmf t p hp)]
    rfl
  have hnemp : (iter_references contains nodes source_pos).isEmpty = false :=
    List.isEmpty_eq_false.mpr hne
  have heq : Assertion.run_defined contains shadows endNode stitch nodes source_pos
      expected_targets =
      (if (uniqueList (expected_targets.filter (fun t =>
            !((actual_paths_of shadows stitch (iter_references contains nodes source_pos)).any
              (fun p => t.matches_nodeD (endNode p)))))).isEmpty &&
          ((actual_paths_of shadows stitch (iter_references contains nodes source_pos)).filter
            (fun p => !(expected_targets.any (fun t => t.matches_nodeD (endNode p))))).isEmpty
        then some (Except.ok ())
        else some (Except.error (AssertionError.incorrectlyDefined
          (iter_references contains nodes source_pos)
          (uniqueList (expected_targets.filter (fun t =>
            !((actual_paths_of shadows stitch (iter_references contains nodes source_pos)).any
              (fun p => t.matches_nodeD (endNode p))))))
          ((actual_paths_of shadows stitch (iter_references contains nodes source_pos)).filter
            (fun p => !(expected_targets.any (fun t => t.matches_nodeD (endNode p)))))))) := by
    simp only [Assertion.run_defined, hnemp, hfil1, hfil2]
    simp
  refine ⟨heq, ?_⟩
  rw [heq]
  by_cases hcond : ((uniqueList (expected_targets.filter (fun t =>
        !((actual_paths_of shadows stitch (iter_references contains nodes source_pos)).any
          (fun p => t.matches_nodeD (endNode p)))))).isEmpty &&
      ((actual_paths_of shadows stitch (iter_references contains nodes source_pos)).filter
        (fun p => !(expected_targets.any (fun t => t.matches_nodeD (endNode p))))).isEmpty)
      = true
  · rw [if_pos hcond]
    rw [uniqueList_filter_not_isEmpty expected_targets
        (fun t => (actual_paths_of shadows stitch (iter_references contains nodes source_pos)).any
          (fun p => t.matches_nodeD (endNode p))),
      filter_not_isEmpty_eq_all
        (actual_paths_of shadows stitch (iter_references contains nodes source_pos))
        (fun p => expected_targets.any (fun t => t.matches_nodeD (endNode p))),
      Bool.and_eq_true] at hcond
    obtain ⟨h1, h2⟩ := hcond
    constructor
    · intro _
      constructor
      · intro t ht
        exact List.any_eq_true.mp (List.all_eq_true.mp h1 t ht)
      · intro p hp
        exact List.any_eq_true.mp (List.all_eq_true.mp h2 p hp)
    · intro _
      rfl
  · rw [if_neg hcond]
    constructor
    · intro h
      exact absurd h (by simp)
    · intro hprops
      exfalso
      apply hcond
      rw [uniqueList_filter_not_isEmpty expected_targets
          (fun t => (actual_paths_of shadows stitch (iter_references contains nodes source_pos)).any
            (fun p => t.matches_nodeD (endNode p))),
        filter_not_isEmpty_eq_all
          (actual_paths_of shadows stitch (iter_references contains nodes source_pos))
          (fun p => expected_targets.any (fun t => t.matches_nodeD (endNode p))),
        Bool.and_eq_true]
      obtain ⟨hp1, hp2⟩ := hprops
      constructor
      · apply List.all_eq_true.mpr
        intro t ht
        exact List.any_eq_true.mpr (hp1 t ht)
      · apply List.all_eq_true.mpr
        intro p hp
        exact List.any_eq_true.mpr (hp2 p hp)

/-- Witness for C3: one reference node at the source position, one stitched
path ending at the definition node of line 5, and the matching expected
target; the assertion succeeds. -/
theorem C3_run_defined_witness :
    (iter_references containsAll nodes0 (3 : Nat) ≠ [] ∧
      ∀ r ∈ iter_references containsAll nodes0 (3 : Nat), ∀ p ∈ stitch0 r,
        (endNode0 p).file? ≠ none ∧ (endNode0 p).span? ≠ none) ∧
    Assertion.run_defined containsAll shadows0 endNode0 stitch0 nodes0 (3 : Nat)
      [AssertionTarget.mk 0 5] = some (Except.ok ()) := by
  have h := C3_run_defined containsAll shadows0 endNode0 stitch0 nodes0 3
    [AssertionTarget.mk 0 5] (by decide) (by decide)
  exact ⟨⟨by decide, by decide⟩, h.2.mpr (by decide)⟩

/-! ### Claim C7 -/

theorem splitCycle_eq_none (s : A → Nat) (e : Nat) (l : List A)
    (h : ∀ a ∈ l, s a ≠ e) : splitCycle s e l = none := by
  induction l with
  | nil => rfl
  | cons a l ih =>
    have ha : s a ≠ e := h a (List.mem_cons_self a l)
    simp [splitCycle, ha, ih (fun x hx => h x (List.mem_cons_of_mem a hx))]

/-- Claim C7: for every `AppendingCycleDetector` state, if its list of
recorded appendages is empty, `is_cyclic` returns `Ok` of the empty
`Cyclicity` set; and more generally, if no recorded appendage has a start
node equal to the end node of the most recently appended element (the head
of the list), `is_cyclic` returns `Ok` of the empty set — the outer loop
exits at its first cycle search, before any prefix path is built. -/
theorem C7_is_cyclic_no_prefix_cycle {A PP C E : Type} [DecidableEq C]
    (O : CycleOps A PP C E) (appendages : List A) :
    (appendages = [] → AppendingCycleDetector.is_cyclic O appendages = Except.ok ∅) ∧
    (∀ hd, appendages.head? = some hd →
      (∀ a ∈ appendages, O.startNode a ≠ O.endNode hd) →
      AppendingCycleDetector.is_cyclic O appendages = Except.ok ∅) := by
  constructor
  · intro h
    rw [h]
    rfl
  · intro hd hhd hnone
    cases appendages with
    | nil => simp at hhd
    | cons a l =>
      have ha : a = hd := by simpa using hhd
      show isCyclicLoop O (O.endNode a) none (a :: l) ∅ = Except.ok ∅
      rw [isCyclicLoop, splitCycle_eq_none O.startNode (O.endNode a) (a :: l)
        (fun x hx => by rw [ha]; exact hnone x hx)]

/-- Witness for C7: a single appendage whose start node differs from its
own end node yields the empty cyclicity set. -/
theorem C7_is_cyclic_no_prefix_cycle_witness :
    AppendingCycleDetector.is_cyclic cycleOps0 [0] = Except.ok ∅ :=
  (C7_is_cyclic_no_prefix_cycle cycleOps0 [0]).2 0 rfl (by decide)

/-! ### Claim C8 -/

/-- Claim C8: for every checkpoint name, `NoCancellation::check` returns
`Ok(())`; and `CancelAfterDuration::check(at)` returns
`Err(CancellationError(at))` exactly when the elapsed time since
construction strictly exceeds the configured limit, and `Ok(())`
otherwise. -/
theorem C8_cancellation (s : String) (c : CancelAfterDuration) (now : Nat) :
    NoCancellation.check s = Except.ok () ∧
    (CancelAfterDuration.check c now s = Except.error (CancellationError.mk s) ↔
      c.limit < c.elapsed now) ∧
    (CancelAfterDuration.check c now s = Except.ok () ↔
      ¬ c.limit < c.elapsed now) := by
  refine ⟨rfl, ?_, ?_⟩
  · by_cases h : c.limit < c.elapsed now
    · simp [CancelAfterDuration.check, h]
    · simp [CancelAfterDuration.check, h]
  · by_cases h : c.limit < c.elapsed now
    · simp [CancelAfterDuration.check, h]
    · simp [CancelAfterDuration.check, h]

/-- Witness for C8: with limit 1, start instant 0 and current instant 5,
the flag cancels at the named checkpoint. -/
theorem C8_cancellation_witness :
    CancelAfterDuration.check ⟨1, 0⟩ 5 "loop" =
      Except.error (CancellationError.mk "loop") :=
  (C8_cancellation "loop" ⟨1, 0⟩ 5).2.1.mpr (by decide)

/-! ### Claim C10 -/

/-- Claim C10: `ImplicationFilter` enforces the exclusion cascade:
`include_node(n)` is false whenever `n` belongs to a file rejected by
`include_file`; `include_edge(s, t)` is false whenever `include_node` is
false for `s` or for `t`; and `include_partial_path(p)` is false whenever
the wrapped filter rejects `p` or `include_edge` is false for some
consecutive pair of the sequence formed by the source nodes of `p`'s edges
followed by `p`'s end node. -/
theorem C10_implication_filter (F : Filter PartialPathView) (n s t : Node)
    (p : PartialPathView) :
    ((∃ f, n.file? = some f ∧ F.include_file f = false) →
      ImplicationFilter.include_node F n = false) ∧
    ((ImplicationFilter.include_node F s = false ∨
        ImplicationFilter.include_node F t = false) →
      ImplicationFilter.include_edge F s t = false) ∧
    ((F.include_partial_path p = false ∨
        ∃ st ∈ tupleWindows (p.edge_sources ++ [p.end_node]),
          ImplicationFilter.include_edge F st.1 st.2 = false) →
      ImplicationFilter.include_partial_path F p = false) := by
  refine ⟨?_, ?_, ?_⟩
  · rintro ⟨f, hf, hff⟩
    simp [ImplicationFilter.include_node, ImplicationFilter.include_file, hf, hff]
  · intro h
    rcases h with h | h <;> simp [ImplicationFilter.include_edge, h]
  · intro h
    rcases h with h | ⟨st, hst, hfe⟩
    · simp [ImplicationFilter.include_partial_path, h]
    · have hall : (tupleWindows (p.edge_sources ++ [p.end_node])).all
          (fun st => ImplicationFilter.include_edge F st.1 st.2) = false :=
        List.all_eq_false.mpr ⟨st, hst, by simp [hfe]⟩
      simp [ImplicationFilter.include_partial_path, hall]

/-- Witness for C10: with a wrapped filter that rejects every file, the
node of file 0, the edge leaving it, and a path using that edge are all
excluded by the implication filter. -/
theorem C10_implication_filter_witness :
    ImplicationFilter.include_node filterNone refNode = false ∧
    ImplicationFilter.include_edge filterNone refNode defNode = false ∧
    ImplicationFilter.include_partial_path filterNone ⟨[refNode], defNode⟩ = false := by
  have h := C10_implication_filter filterNone refNode refNode defNode ⟨[refNode], defNode⟩
  have h1 : ImplicationFilter.include_node filterNone refNode = false :=
    h.1 ⟨0, rfl, rfl⟩
  have h2 : ImplicationFilter.include_edge filterNone refNode defNode = false :=
    h.2.1 (Or.inl h1)
  have h3 : ImplicationFilter.include_partial_path filterNone ⟨[refNode], defNode⟩ = false :=
    h.2.2 (Or.inr ⟨(refNode, defNode), by decide, h2⟩)
  exact ⟨h1, h2, h3⟩

end StackGraphs
